import Mathlib

/-!
Verification development for the nem-price-bot repository.

Shallow embedding of the Rust sources:
  src/data/parser.rs      (parse_dispatch)
  src/db/repository.rs    (the Store operations, over an in-memory table model)
  src/engine/analyzer.rs  (analyze, analyze_forecasts, can_alert)
  src/bot/notifier.rs     (send_alerts)
  src/engine/scheduler.rs (wait_until_next_price_slot, price_fetch_checked,
                           the per-slot retry loop, process_prices)

Modelling conventions:
  - f64 prices are modelled as rationals; the only f64 operations the
    modelled code performs are comparisons, subtraction and abs, which agree
    with rational arithmetic on the finite domain the parser admits.
  - RFC3339 UTC timestamps (fixed-width, zero padded) are ordered exactly as
    their underlying instants, so `sent_at` / `fetched_at` / cutoff values are
    modelled as integer seconds.
  - Market-local interval strings (YYYY/MM/DD HH:MM:SS) are kept as strings
    and compared lexicographically, as SQLite does.
  - Fallible queries return Except Unit; Rust's unwrap_or is `unwrapOr`.
  - Message formatting (src/bot/messages.rs) is pure; an alert text is
    modelled as the constructor of the format call together with its
    arguments.
-/

namespace NemBot

/-- Rust unwrap_or on a Result. -/
def unwrapOr {α : Type} (e : Except Unit α) (d : α) : α :=
  match e with
  | .ok a => a
  | .error _ => d

/-- Rust Result::ok().flatten() on a Result of Option. -/
def okFlatten {α : Type} (e : Except Unit (Option α)) : Option α :=
  match e with
  | .ok a => a
  | .error _ => none

-- ── Executable string primitives ─────────────────────────────────────────

/-- Lexicographic strict order on character lists (codepoint order): the
order SQLite's BINARY collation and Rust str comparison induce on the ASCII
strings this program stores. -/
def charListLt : List Char → List Char → Bool
  | [], [] => false
  | [], _ :: _ => true
  | _ :: _, [] => false
  | a :: as', b :: bs => if a < b then true else if b < a then false else charListLt as' bs

/-- Lexicographic strict order on strings. -/
def strLt (a b : String) : Bool := charListLt a.data b.data

/-- Lexicographic non-strict order on strings. -/
def strLe (a b : String) : Bool := ! strLt b a

/-- SQL LIKE with a trailing percent wildcard: prefix test. -/
def strIsPfx (p s : String) : Bool := p.data.isPrefixOf s.data

-- ── Parser (src/data/parser.rs) ──────────────────────────────────────────

/-- Rust str::split with a one-character separator. -/
def splitOnChar (sep : Char) : List Char → List (List Char)
  | [] => [[]]
  | c :: cs =>
    match splitOnChar sep cs with
    | [] => [[c]]
    | f :: rest => if c = sep then [] :: f :: rest else (c :: f) :: rest

/-- Rust str::trim on a line of the CSV (ASCII whitespace). -/
def trimChars (cs : List Char) : List Char :=
  ((cs.dropWhile Char.isWhitespace).reverse.dropWhile Char.isWhitespace).reverse

/-- Rust str::trim_matches applied with the double-quote character: remove
all leading and trailing quote characters. -/
def trimQuotes (cs : List Char) : List Char :=
  ((cs.dropWhile (fun c => c = '"')).reverse.dropWhile (fun c => c = '"')).reverse

/-- Strip one trailing carriage return, as Rust str::lines does on each
newline-terminated line. -/
def stripCR (l : List Char) : List Char :=
  match l.getLast? with
  | some c => if c = '\r' then l.dropLast else l
  | none => l

/-- Rust str::lines: split on newline; a final line ending is optional; a
carriage return is stripped only where it preceded a newline. -/
def rustLines (cs : List Char) : List (List Char) :=
  if cs.isEmpty then []
  else
    match (splitOnChar '\n' cs).reverse with
    | [] => []
    | lastPart :: restRev =>
      if cs.getLast? = some '\n' then restRev.reverse.map stripCR
      else restRev.reverse.map stripCR ++ [lastPart]

/-- Value of a digit list, most significant first. -/
def digitsToNat (l : List Char) : Nat :=
  l.foldl (fun a c => a * 10 + (c.toNat - 48)) 0

/-- Decimal fragment of Rust str::parse to f64, as a rational: optional
sign, digits, optional fractional part.  Returns none where Rust would
return Err or a non-finite value; parse_dispatch rejects the row in either
case (unwrap_or(NAN) followed by is_finite), so none faithfully models
rejection. -/
def parseRat (s : List Char) : Option ℚ :=
  let go : List Char → Option ℚ := fun cs =>
    let ip := cs.takeWhile Char.isDigit
    let rest := cs.dropWhile Char.isDigit
    match rest with
    | [] => if ip.isEmpty then none else some (digitsToNat ip : ℚ)
    | '.' :: fp =>
      if fp.all Char.isDigit && !(ip.isEmpty && fp.isEmpty) then
        some ((digitsToNat ip : ℚ) + (digitsToNat fp : ℚ) / ((10 : ℚ) ^ fp.length))
      else none
    | _ => none
  match s with
  | '-' :: cs => (go cs).map (fun q => -q)
  | '+' :: cs => go cs
  | cs => go cs

structure PriceRecord where
  region : String
  price : ℚ
  interval_time : String
deriving DecidableEq, Repr

structure ForecastRecord where
  region : String
  forecast_time : String
  price : ℚ
deriving DecidableEq, Repr

/-- HashMap::get on the column map: the most recently inserted binding for
the key wins. -/
def mapGet (m : List (List Char × Nat)) (k : List Char) : Option Nat :=
  (m.reverse.find? (fun e => e.1 == k)).map (fun e => e.2)

/-- Column map captured from an I row: every field, trimmed and
quote-stripped, bound to its index (HashMap insert in field order). -/
def colMapOf (line : List Char) : List (List Char × Nat) :=
  (splitOnChar ',' line).enum.map (fun p => (trimQuotes (trimChars p.2), p.1))

/-- Does the line carry the (I, DISPATCH, PRICE) header tag with at least
three fields? -/
def isIline (line : List Char) : Bool :=
  let fields := splitOnChar ',' line
  decide (3 ≤ fields.length ∧ trimChars (fields.getD 0 []) = "I".data ∧
    trimChars (fields.getD 1 []) = "DISPATCH".data ∧
    trimChars (fields.getD 2 []) = "PRICE".data)

/-- Does the line carry the (D, DISPATCH, PRICE) data tag with at least
three fields? -/
def isDline (line : List Char) : Bool :=
  let fields := splitOnChar ',' line
  decide (3 ≤ fields.length ∧ trimChars (fields.getD 0 []) = "D".data ∧
    trimChars (fields.getD 1 []) = "DISPATCH".data ∧
    trimChars (fields.getD 2 []) = "PRICE".data)

/-- The record a D row contributes under a given column map: the body of the
D branch of parse_dispatch. -/
def emitD (colMap : List (List Char × Nat)) (line : List Char) : List PriceRecord :=
  let fields := splitOnChar ',' line
  match mapGet colMap "REGIONID".data, mapGet colMap "RRP".data,
      mapGet colMap "SETTLEMENTDATE".data with
  | some ri, some pi, some ti =>
    if ri < fields.length ∧ pi < fields.length ∧ ti < fields.length then
      let region := String.mk (trimQuotes (trimChars (fields.getD ri [])))
      let time := String.mk (trimQuotes (trimChars (fields.getD ti [])))
      match parseRat (trimQuotes (trimChars (fields.getD pi []))) with
      | some price =>
        if -1000 ≤ price ∧ price ≤ 17500 then [⟨region, price, time⟩] else []
      | none => []
    else []
  | _, _, _ => []

/-- One line of parse_dispatch: thread the column map, append any record the
line contributes. -/
def parseStep (st : List (List Char × Nat) × List PriceRecord) (line : List Char) :
    List (List Char × Nat) × List PriceRecord :=
  let fields := splitOnChar ',' line
  if fields.length < 3 then st
  else
    let tag := trimChars (fields.getD 0 [])
    let table := trimChars (fields.getD 1 [])
    let sub := trimChars (fields.getD 2 [])
    let colMap :=
      if tag = "I".data ∧ table = "DISPATCH".data ∧ sub = "PRICE".data then colMapOf line
      else st.1
    let records :=
      if tag = "D".data ∧ table = "DISPATCH".data ∧ sub = "PRICE".data then
        st.2 ++ emitD st.1 line
      else st.2
    (colMap, records)

/-- parse_dispatch from src/data/parser.rs: fold the I/D state machine over
the lines, starting from an empty column map. -/
def parse_dispatch (csv : String) : List PriceRecord :=
  ((rustLines csv.data).foldl parseStep ([], [])).2

/-- Specification rendering of parse_dispatch, following the spec's words: a
one-pass state machine holding the column map supplied by the last matching
I row seen earlier in the file; each D row contributes its record (if any)
at its own position, so surviving records appear in file order. -/
def parseDispatchSpecGo (colMap : List (List Char × Nat)) :
    List (List Char) → List PriceRecord
  | [] => []
  | l :: ls =>
    (if isDline l then emitD colMap l else []) ++
      parseDispatchSpecGo (if isIline l then colMapOf l else colMap) ls

/-- Specification rendering of parse_dispatch over a whole file. -/
def parse_dispatch_spec (csv : String) : List PriceRecord :=
  parseDispatchSpecGo [] (rustLines csv.data)

-- ── Store (src/db/repository.rs over in-memory tables) ──────────────────

/-- Row of the users table (columns per migrations/001_init.sql via the
queries in repository.rs). -/
structure UserRow where
  chat_id : Int
  region : String
  high_alert : ℚ
  low_alert : ℚ
  is_active : Bool
  created_at : Int
  updated_at : Int
deriving DecidableEq, Repr

/-- User as read back by repository.rs (get_active_users_by_region hardcodes
is_active := true in its row mapper). -/
structure User where
  chat_id : Int
  region : String
  high_alert : ℚ
  low_alert : ℚ
  is_active : Bool
  created_at : Int
deriving DecidableEq, Repr

structure PriceRow where
  region : String
  price_mwh : ℚ
  interval_time : String
  fetched_at : Int
deriving DecidableEq, Repr

structure ForecastRow where
  region : String
  forecast_time : String
  price_mwh : ℚ
  published_at : String
  fetched_at : Int
deriving DecidableEq, Repr

structure AlertRow where
  chat_id : Int
  alert_type : String
  price_mwh : ℚ
  region : String
  sent_at : Int
deriving DecidableEq, Repr

structure Store where
  users : List UserRow
  price_history : List PriceRow
  forecast : List ForecastRow
  alert_log : List AlertRow
deriving DecidableEq, Repr

def Store.empty : Store := ⟨[], [], [], []⟩

/-- Modelled from the spec: migrations/001_init.sql is not under src/, so
the column defaults of the users table come from the spec's Store operation
set (insert if absent with default high_alert=150, low_alert=0,
is_active=true). -/
def defaultHighAlert : ℚ := 150

/-- Modelled from the spec: default low_alert of a freshly inserted user
(migrations/001_init.sql is not under src/). -/
def defaultLowAlert : ℚ := 0

/-- upsert_user: INSERT ... ON CONFLICT(chat_id) DO UPDATE SET region,
updated_at.  On conflict only region and updated_at are assigned; absent
rows are inserted with the table defaults. -/
def Store.upsert_user (s : Store) (now : Int) (chat_id : Int) (region : String) : Store :=
  if s.users.any (fun u => u.chat_id == chat_id) then
    { s with users := s.users.map (fun u =>
        if u.chat_id == chat_id then { u with region := region, updated_at := now } else u) }
  else
    { s with users := s.users ++
        [{ chat_id := chat_id, region := region, high_alert := defaultHighAlert,
           low_alert := defaultLowAlert, is_active := true,
           created_at := now, updated_at := now }] }

/-- set_active: UPDATE users SET is_active, updated_at WHERE chat_id. -/
def Store.set_active (s : Store) (now : Int) (chat_id : Int) (active : Bool) : Store :=
  { s with users := s.users.map (fun u =>
      if u.chat_id == chat_id then { u with is_active := active, updated_at := now } else u) }

/-- Modelled from the spec for the uniqueness key: the unique index on
(region, interval_time) lives in migrations/001_init.sql which is not under
src/; the INSERT OR IGNORE statement itself is in repository.rs. -/
def Store.insert_price (s : Store) (now : Int) (region : String) (price : ℚ)
    (interval_time : String) : Store :=
  if s.price_history.any (fun r => r.region == region && r.interval_time == interval_time) then s
  else { s with price_history := s.price_history ++ [⟨region, price, interval_time, now⟩] }

/-- Modelled from the spec for the uniqueness key: the unique index on
(region, forecast_time, published_at) lives in migrations/001_init.sql which
is not under src/; the INSERT OR IGNORE statement itself is in
repository.rs. -/
def Store.insert_forecast (s : Store) (now : Int) (region : String) (forecast_time : String)
    (price : ℚ) (published_at : String) : Store :=
  if s.forecast.any (fun r =>
      r.region == region && r.forecast_time == forecast_time && r.published_at == published_at)
  then s
  else { s with forecast := s.forecast ++ [⟨region, forecast_time, price, published_at, now⟩] }

/-- Insertion sort used to model an SQL ORDER BY with a total Boolean
preorder. -/
def insertBy {α : Type} (le : α → α → Bool) (a : α) : List α → List α
  | [] => [a]
  | b :: bs => if le a b then a :: b :: bs else b :: insertBy le a bs

/-- Sort used to model an SQL ORDER BY. -/
def sortBy {α : Type} (le : α → α → Bool) : List α → List α
  | [] => []
  | a :: as' => insertBy le a (sortBy le as')

/-- ORDER BY forecast_time, published_at DESC. -/
def forecastLe (a b : ForecastRow) : Bool :=
  strLt a.forecast_time b.forecast_time ||
    (a.forecast_time == b.forecast_time && strLe b.published_at a.published_at)

/-- The HashSet filter of get_forecasts: keep the first row seen for each
forecast_time. -/
def dedupByTime (seen : List String) : List (String × ℚ) → List (String × ℚ)
  | [] => []
  | (t, p) :: rest =>
    if t ∈ seen then dedupByTime seen rest else (t, p) :: dedupByTime (t :: seen) rest

/-- get_forecasts: rows of the region with after < forecast_time ≤ before,
ordered by forecast_time then published_at descending, keeping only the
latest published forecast per time slot. -/
def Store.get_forecasts (s : Store) (region after before : String) : List (String × ℚ) :=
  let rows := s.forecast.filter (fun r =>
    r.region == region && strLt after r.forecast_time && strLe r.forecast_time before)
  dedupByTime [] ((sortBy forecastLe rows).map (fun r => (r.forecast_time, r.price_mwh)))

/-- ORDER BY interval_time DESC. -/
def priceDescLe (a b : PriceRow) : Bool :=
  strLe b.interval_time a.interval_time

/-- get_previous_price: second most recent row of the region by
interval_time. -/
def Store.get_previous_price (s : Store) (region : String) : Option ℚ :=
  ((sortBy priceDescLe (s.price_history.filter (fun r => r.region == region))).drop 1).head?.map
    (fun r => r.price_mwh)

/-- get_latest_price: most recent row of the region by interval_time. -/
def Store.get_latest_price (s : Store) (region : String) : Option (ℚ × String) :=
  (sortBy priceDescLe (s.price_history.filter (fun r => r.region == region))).head?.map
    (fun r => (r.price_mwh, r.interval_time))

/-- get_daily_range: MIN and MAX price over rows whose interval_time has the
given date prefix (LIKE with a trailing percent wildcard); none when no row
matches. -/
def Store.get_daily_range (s : Store) (region datePfx : String) : Option (ℚ × ℚ) :=
  let ps := (s.price_history.filter (fun r =>
    r.region == region && strIsPfx datePfx r.interval_time)).map (fun r => r.price_mwh)
  match ps with
  | [] => none
  | p :: rest => some (rest.foldl min p, rest.foldl max p)

/-- get_active_users_by_region: rows of the region with is_active set; the
row mapper in repository.rs writes is_active := true verbatim. -/
def Store.get_active_users_by_region (s : Store) (region : String) : List User :=
  (s.users.filter (fun u => u.region == region && u.is_active)).map (fun u =>
    { chat_id := u.chat_id, region := u.region, high_alert := u.high_alert,
      low_alert := u.low_alert, is_active := true, created_at := u.created_at })

/-- log_alert: INSERT one row with sent_at = now. -/
def Store.log_alert (s : Store) (now : Int) (chat_id : Int) (alert_type : String)
    (price : ℚ) (region : String) : Store :=
  { s with alert_log := s.alert_log ++ [⟨chat_id, alert_type, price, region, now⟩] }

/-- was_alert_sent_recently: any row of the chat and type with
sent_at > now - minutes. -/
def Store.was_alert_sent_recently (s : Store) (now : Int) (chat_id : Int)
    (alert_type : String) (minutes : Int) : Bool :=
  decide (0 < s.alert_log.countP (fun r =>
    decide (r.chat_id = chat_id ∧ r.alert_type = alert_type ∧ now - minutes * 60 < r.sent_at)))

/-- count_alerts_this_hour: rows of the chat with sent_at > now - 1h. -/
def Store.count_alerts_this_hour (s : Store) (now : Int) (chat_id : Int) : Int :=
  (s.alert_log.countP (fun r => decide (r.chat_id = chat_id ∧ now - 3600 < r.sent_at)) : Nat)

-- ── Analyzer (src/engine/analyzer.rs) ────────────────────────────────────

/-- Message text: the format call of src/bot/messages.rs an alert carries,
with its arguments. -/
inductive MsgText where
  | spike (region : String) (prev current : ℚ)
  | high (region : String) (current threshold : ℚ) (dailyRange : Option (ℚ × ℚ))
  | low (region : String) (current : ℚ)
  | allClear (region : String) (current : ℚ) (peak : Option ℚ)
  | forecast (region : String) (fcPrice : ℚ) (fcTime : String) (currentPrice : ℚ)
deriving DecidableEq, Repr

structure PendingAlert where
  chat_id : Int
  text : MsgText
  alert_type : String
  price : ℚ
  region : String
deriving DecidableEq, Repr

/-- The read-only view of the Db the analyzer consumes; every query may fail
with a StorageError. -/
structure DbView where
  get_previous_price : String → Except Unit (Option ℚ)
  get_active_users_by_region : String → Except Unit (List User)
  get_daily_range : String → String → Except Unit (Option (ℚ × ℚ))
  get_forecasts : String → String → String → Except Unit (List (String × ℚ))
  was_alert_sent_recently : Int → String → Int → Except Unit Bool
  count_alerts_this_hour : Int → Except Unit Int

/-- can_alert from src/engine/analyzer.rs: not recently deduplicated and
under the 10-per-hour cap; a failing query counts as a recent alert
(unwrap_or(true)) and as a full hour (unwrap_or(10)). -/
def can_alert (db : DbView) (chat_id : Int) (alert_type : String) (dedup_minutes : Int) : Bool :=
  let not_dup := ! (unwrapOr (db.was_alert_sent_recently chat_id alert_type dedup_minutes) true)
  let under_limit := decide (unwrapOr (db.count_alerts_this_hour chat_id) 10 < 10)
  not_dup && under_limit

/-- Spike branch of analyze: previous price present, jump above 100 in
absolute value, one spike alert per active user passing can_alert. -/
def spikeAlerts (db : DbView) (rec : PriceRecord) : List PendingAlert :=
  match okFlatten (db.get_previous_price rec.region) with
  | none => []
  | some prev =>
    if |rec.price - prev| > 100 then
      match db.get_active_users_by_region rec.region with
      | .error _ => []
      | .ok users =>
        users.flatMap (fun user =>
          if can_alert db user.chat_id "spike" 30 then
            [{ chat_id := user.chat_id, text := .spike rec.region prev rec.price,
               alert_type := "spike", price := rec.price, region := rec.region }]
          else [])
    else []

/-- Per-user threshold body of analyze: high, low, then all-clear, in push
order. -/
def userThresholdAlerts (db : DbView) (dailyRange : Option (ℚ × ℚ)) (rec : PriceRecord)
    (user : User) : List PendingAlert :=
  (if decide (rec.price > user.high_alert) && can_alert db user.chat_id "high_price" 30 then
    [{ chat_id := user.chat_id, text := .high rec.region rec.price user.high_alert dailyRange,
       alert_type := "high_price", price := rec.price, region := rec.region }]
  else []) ++
  (if decide (rec.price < user.low_alert) && can_alert db user.chat_id "low_price" 30 then
    [{ chat_id := user.chat_id, text := .low rec.region rec.price,
       alert_type := "low_price", price := rec.price, region := rec.region }]
  else []) ++
  (if decide (rec.price ≤ user.high_alert) then
    let was_high := unwrapOr (db.was_alert_sent_recently user.chat_id "high_price" 180) false
    let already_cleared := unwrapOr (db.was_alert_sent_recently user.chat_id "all_clear" 60) false
    if was_high && !already_cleared then
      [{ chat_id := user.chat_id,
         text := .allClear rec.region rec.price (dailyRange.map (fun r => r.2)),
         alert_type := "all_clear", price := rec.price, region := rec.region }]
    else []
  else [])

/-- Alerts one price record contributes in analyze: the spike block, then —
unless the user query failed (continue) — the per-user threshold blocks. -/
def recordAlerts (db : DbView) (todayPfx : String) (rec : PriceRecord) : List PendingAlert :=
  spikeAlerts db rec ++
    match db.get_active_users_by_region rec.region with
    | .error _ => []
    | .ok users =>
      let dailyRange := okFlatten (db.get_daily_range rec.region todayPfx)
      users.flatMap (userThresholdAlerts db dailyRange rec)

/-- analyze from src/engine/analyzer.rs. -/
def analyze (db : DbView) (todayPfx : String) (prices : List PriceRecord) : List PendingAlert :=
  prices.flatMap (recordAlerts db todayPfx)

/-- analyze_forecasts from src/engine/analyzer.rs: forecasts in
(now, now+1h], one forecast alert per breaching slot and active user
passing can_alert with a 60-minute dedup window. -/
def analyze_forecasts (db : DbView) (nowStr laterStr : String) (region : String)
    (current_price : ℚ) : List PendingAlert :=
  match db.get_forecasts region nowStr laterStr with
  | .error _ => []
  | .ok forecasts =>
    match db.get_active_users_by_region region with
    | .error _ => []
    | .ok users =>
      forecasts.flatMap (fun fc =>
        users.flatMap (fun user =>
          if decide (fc.2 > user.high_alert) && can_alert db user.chat_id "forecast" 60 then
            [{ chat_id := user.chat_id, text := .forecast region fc.2 fc.1 current_price,
               alert_type := "forecast", price := fc.2, region := region }]
          else []))

/-- The infallible DbView a Store provides at an instant. -/
def Store.view (s : Store) (now : Int) : DbView where
  get_previous_price := fun region => .ok (s.get_previous_price region)
  get_active_users_by_region := fun region => .ok (s.get_active_users_by_region region)
  get_daily_range := fun region pfx => .ok (s.get_daily_range region pfx)
  get_forecasts := fun region a b => .ok (s.get_forecasts region a b)
  was_alert_sent_recently := fun chat ty m => .ok (s.was_alert_sent_recently now chat ty m)
  count_alerts_this_hour := fun chat => .ok (s.count_alerts_this_hour now chat)

-- ── Notifier (src/bot/notifier.rs) ───────────────────────────────────────

/-- Outcome of one bot.send_message call; a failure carries the transport's
error text (the code tests it for the substring Forbidden). -/
inductive SendOutcome where
  | ok
  | err (msg : String)
deriving DecidableEq, Repr

/-- Does the pattern occur as a contiguous substring (Rust
String::contains)? -/
def containsSub (s pat : String) : Bool :=
  (List.range (s.data.length + 1)).any (fun i => pat.data.isPrefixOf (s.data.drop i))

/-- Environment of one iteration of the send_alerts loop: the transport
outcome, whether the count query raised a StorageError, and the wall clock
at that iteration. -/
structure SendEvent where
  outcome : SendOutcome
  countFail : Bool
  time : Int
deriving DecidableEq, Repr

/-- Body of the send_alerts loop for one pending alert: drop when the
re-checked hourly count (a failing query counts as 10) is at least 10;
otherwise attempt the send; log on success; on failure deactivate the user
iff the error text contains Forbidden. Returns the new store and the
messages handed to the transport. -/
def sendStep (s : Store) (p : PendingAlert × SendEvent) : Store × List (Int × MsgText) :=
  let a := p.1
  let e := p.2
  let cntRes : Except Unit Int :=
    if e.countFail then .error () else .ok (s.count_alerts_this_hour e.time a.chat_id)
  if unwrapOr cntRes 10 ≥ 10 then (s, [])
  else
    match e.outcome with
    | .ok => (s.log_alert e.time a.chat_id a.alert_type a.price a.region, [(a.chat_id, a.text)])
    | .err msg =>
      if containsSub msg "Forbidden" then (s.set_active e.time a.chat_id false, [(a.chat_id, a.text)])
      else (s, [(a.chat_id, a.text)])

/-- Fold step of send_alerts: thread the store, accumulate the outbound
messages. -/
def sendAccum (acc : Store × List (Int × MsgText)) (p : PendingAlert × SendEvent) :
    Store × List (Int × MsgText) :=
  let r := sendStep acc.1 p
  (r.1, acc.2 ++ r.2)

/-- send_alerts from src/bot/notifier.rs: process the pending list
sequentially, threading the store. -/
def send_alerts (s : Store) (alerts : List (PendingAlert × SendEvent)) :
    Store × List (Int × MsgText) :=
  alerts.foldl sendAccum (s, [])

-- ── Scheduler (src/engine/scheduler.rs) ──────────────────────────────────

/-- wait_until_next_price_slot: seconds until the next HH:MM:30 with
MM mod 5 = 1, computed from the current minute and second of the market's
civil clock. -/
def wait_until_next_price_slot (minute sec : Int) : Int :=
  let current_secs := minute * 60 + sec
  let base := minute - minute % 5
  let target_secs := base * 60 + 90
  let wait :=
    if target_secs > current_secs then target_secs - current_secs
    else target_secs + 300 - current_secs
  max wait 1

def REGIONS : List String := ["NSW1", "VIC1", "QLD1", "SA1", "TAS1"]

/-- process_prices from src/engine/scheduler.rs: insert every record, run
analyze against the store holding the fresh rows, send the price alerts,
then run per-region forecast analysis, sending after each region.  ev
supplies the send environment of the k-th outbound alert of this call. -/
def process_prices (s : Store) (now : Int) (todayPfx nowStr laterStr : String)
    (prices : List PriceRecord) (ev : Nat → SendEvent) : Store × List (Int × MsgText) :=
  let s1 := prices.foldl (fun st p => st.insert_price now p.region p.price p.interval_time) s
  let alerts := analyze (s1.view now) todayPfx prices
  let r1 := send_alerts s1 (alerts.enum.map (fun ie => (ie.2, ev ie.1)))
  let step := fun (acc : Store × List (Int × MsgText) × Nat) (region : String) =>
    let current := ((prices.find? (fun p => p.region == region)).map (fun p => p.price)).getD 0
    let fcAlerts := analyze_forecasts (acc.1.view now) nowStr laterStr region current
    let r := send_alerts acc.1 (fcAlerts.enum.map (fun ie => (ie.2, ev (acc.2.2 + ie.1))))
    (r.1, acc.2.1 ++ r.2, acc.2.2 + fcAlerts.length)
  let out := REGIONS.foldl step (r1.1, r1.2, alerts.length)
  (out.1, out.2.1)

/-- Result of one fetch_dispatch call as the slot loop sees it. -/
inductive FetchReply where
  | ok (prices : List PriceRecord)
  | err
deriving DecidableEq, Repr

inductive FetchResult where
  | Success
  | Stale
  | Error
deriving DecidableEq, Repr

/-- price_fetch_checked: classify the fetch against the expected settlement
time before any store write; only a matching fetch is processed. -/
def price_fetch_checked (reply : FetchReply) (expected : String) (s : Store) (now : Int)
    (todayPfx nowStr laterStr : String) (ev : Nat → SendEvent) :
    FetchResult × Store × List (Int × MsgText) :=
  match reply with
  | .err => (.Error, s, [])
  | .ok prices =>
    if prices.any (fun p => p.interval_time == expected) then
      let r := process_prices s now todayPfx nowStr laterStr prices ev
      (.Success, r.1, r.2)
    else (.Stale, s, [])

/-- Observable outcome of one aligned price slot. -/
structure SlotOutcome where
  store : Store
  sent : List (Int × MsgText)
  success : Bool
  fetches : Nat
  sleeps15 : Nat
deriving Repr

/-- The attempt loop of price_fetch_loop for one slot: Success and Error
both leave the loop; Stale sleeps 15 s and refetches while attempts
remain. -/
def runSlotGo (reply : Nat → FetchReply) (expected : String) (now : Int)
    (todayPfx nowStr laterStr : String) (ev : Nat → SendEvent) :
    Nat → Nat → Store → SlotOutcome
  | 0, _, s => ⟨s, [], false, 0, 0⟩
  | fuel + 1, i, s =>
    match price_fetch_checked (reply i) expected s now todayPfx nowStr laterStr ev with
    | (.Success, s', m) => ⟨s', m, true, 1, 0⟩
    | (.Error, s', m) => ⟨s', m, false, 1, 0⟩
    | (.Stale, s', m) =>
      let rest := runSlotGo reply expected now todayPfx nowStr laterStr ev fuel (i + 1) s'
      ⟨rest.store, m ++ rest.sent, rest.success, rest.fetches + 1, rest.sleeps15 + 1⟩

/-- One slot of price_fetch_loop: up to 5 attempts (for attempt in 0..5). -/
def runSlot (reply : Nat → FetchReply) (expected : String) (now : Int)
    (todayPfx nowStr laterStr : String) (ev : Nat → SendEvent) (s : Store) : SlotOutcome :=
  runSlotGo reply expected now todayPfx nowStr laterStr ev 5 0 s

-- ── Theorems ─────────────────────────────────────────────────────────────

/-- C9: for every wall-clock minute and second, wait_until_next_price_slot
returns the delay to the next instant 90 seconds past a 5-minute boundary
(HH:MM:30 with MM mod 5 = 1, i.e. an in-hour offset congruent to 90 modulo
300); the delay is strictly positive and at most one full 5-minute
period. -/
theorem clock_alignment_next_slot (m s : Int) (hm0 : 0 ≤ m) (hm : m < 60)
    (hs0 : 0 ≤ s) (hs : s < 60) :
    0 < wait_until_next_price_slot m s ∧
    wait_until_next_price_slot m s ≤ 300 ∧
    (m * 60 + s + wait_until_next_price_slot m s) % 300 = 90 ∧
    ∀ d : Int, 0 < d → (m * 60 + s + d) % 300 = 90 → wait_until_next_price_slot m s ≤ d := by
  have h5 : m % 5 < 5 := Int.emod_lt_of_pos m (by norm_num)
  have h50 : 0 ≤ m % 5 := Int.emod_nonneg m (by norm_num)
  unfold wait_until_next_price_slot
  dsimp only
  split_ifs with h
  · have hmax : max ((m - m % 5) * 60 + 90 - (m * 60 + s)) 1 =
        (m - m % 5) * 60 + 90 - (m * 60 + s) := max_eq_left (by omega)
    rw [hmax]
    refine ⟨by omega, by omega, by omega, ?_⟩
    intro d hd hdmod
    omega
  · have hmax : max ((m - m % 5) * 60 + 90 + 300 - (m * 60 + s)) 1 =
        (m - m % 5) * 60 + 90 + 300 - (m * 60 + s) := max_eq_left (by omega)
    rw [hmax]
    refine ⟨by omega, by omega, by omega, ?_⟩
    intro d hd hdmod
    omega

/-- Witness for C9 at minute 1, second 30 (exactly on a slot instant: the
next slot is a full period away). -/
theorem clock_alignment_next_slot_witness :
    0 < wait_until_next_price_slot 1 30 ∧
    wait_until_next_price_slot 1 30 ≤ 300 ∧
    (1 * 60 + 30 + wait_until_next_price_slot 1 30) % 300 = 90 ∧
    wait_until_next_price_slot 1 30 ≤ 300 :=
  have h := clock_alignment_next_slot 1 30 (by norm_num) (by norm_num) (by norm_num) (by norm_num)
  ⟨h.1, h.2.1, h.2.2.1, h.2.2.2 300 (by norm_num) (by decide)⟩

/-- A DbView whose rate-limit bookkeeping queries all raise StorageError. -/
def failingDb : DbView where
  get_previous_price := fun _ => .error ()
  get_active_users_by_region := fun _ => .error ()
  get_daily_range := fun _ _ => .error ()
  get_forecasts := fun _ _ _ => .error ()
  was_alert_sent_recently := fun _ _ _ => .error ()
  count_alerts_this_hour := fun _ => .error ()

/-- C10: storage errors in the rate-limit bookkeeping fail closed: a failing
was_alert_sent_recently or count_alerts_this_hour makes can_alert false, and
a failing count query in the notifier drops the alert with no send and no
store change. -/
theorem fail_closed_rate_limit :
    (∀ (db : DbView) (chat : Int) (ty : String) (m : Int),
      db.was_alert_sent_recently chat ty m = .error () → can_alert db chat ty m = false) ∧
    (∀ (db : DbView) (chat : Int) (ty : String) (m : Int),
      db.count_alerts_this_hour chat = .error () → can_alert db chat ty m = false) ∧
    (∀ (s : Store) (a : PendingAlert) (e : SendEvent),
      e.countFail = true → sendStep s (a, e) = (s, [])) := by
  refine ⟨?_, ?_, ?_⟩
  · intro db chat ty m h
    simp [can_alert, h, unwrapOr]
  · intro db chat ty m h
    simp [can_alert, h, unwrapOr]
  · intro s a e h
    simp [sendStep, h, unwrapOr]

/-- Witness for C10: the all-failing DbView blocks can_alert, and a failing
count query makes the notifier drop the alert. -/
theorem fail_closed_rate_limit_witness :
    can_alert failingDb 1 "high_price" 30 = false ∧
    sendStep Store.empty
      (⟨1, .low "NSW1" 5, "low_price", 5, "NSW1"⟩, ⟨.ok, true, 0⟩) = (Store.empty, []) :=
  ⟨fail_closed_rate_limit.1 failingDb 1 "high_price" 30 rfl,
   fail_closed_rate_limit.2.2 Store.empty ⟨1, .low "NSW1" 5, "low_price", 5, "NSW1"⟩
     ⟨.ok, true, 0⟩ rfl⟩

/-- C8: upsert_user on a present chat_id rewrites only region and
updated_at, keeping high_alert, low_alert, is_active and created_at of every
row (rows of other chats are untouched verbatim); on an absent chat_id it
appends a new user with the default thresholds and is_active true; the other
three tables are never touched. -/
theorem upsert_user_frame :
    (∀ (s : Store) (now chat : Int) (region : String), (∃ u ∈ s.users, u.chat_id = chat) →
      List.Forall₂ (fun (old nu : UserRow) =>
          nu.chat_id = old.chat_id ∧ nu.high_alert = old.high_alert ∧
          nu.low_alert = old.low_alert ∧ nu.is_active = old.is_active ∧
          nu.created_at = old.created_at ∧
          (old.chat_id = chat → nu.region = region ∧ nu.updated_at = now) ∧
          (old.chat_id ≠ chat → nu = old))
        s.users (Store.upsert_user s now chat region).users) ∧
    (∀ (s : Store) (now chat : Int) (region : String), (∀ u ∈ s.users, u.chat_id ≠ chat) →
      (Store.upsert_user s now chat region).users =
        s.users ++ [⟨chat, region, defaultHighAlert, defaultLowAlert, true, now, now⟩]) ∧
    (∀ (s : Store) (now chat : Int) (region : String),
      (Store.upsert_user s now chat region).price_history = s.price_history ∧
      (Store.upsert_user s now chat region).forecast = s.forecast ∧
      (Store.upsert_user s now chat region).alert_log = s.alert_log) := by
  refine ⟨?_, ?_, ?_⟩
  · intro s now chat region hex
    have hany : s.users.any (fun u => u.chat_id == chat) = true := by
      obtain ⟨u, hu, he⟩ := hex
      exact List.any_eq_true.mpr ⟨u, hu, beq_iff_eq.mpr he⟩
    unfold Store.upsert_user
    rw [if_pos hany]
    show List.Forall₂ _ s.users (s.users.map _)
    generalize s.users = l
    induction l with
    | nil => exact List.Forall₂.nil
    | cons a l ih =>
      refine List.Forall₂.cons ?_ ih
      by_cases h : a.chat_id = chat
      · simp [h]
      · simp [h]
  · intro s now chat region hnone
    have hany : s.users.any (fun u => u.chat_id == chat) = false := by
      rw [List.any_eq_false]
      intro u hu
      simpa using hnone u hu
    unfold Store.upsert_user
    rw [if_neg (by simp [hany])]
  · intro s now chat region
    unfold Store.upsert_user
    split <;> exact ⟨rfl, rfl, rfl⟩

/-- Witness for C8: one concrete store with the chat present (fields other
than region and updated_at survive), one with it absent (defaults
inserted), and the untouched price table. -/
theorem upsert_user_frame_witness :
    List.Forall₂ (fun (old nu : UserRow) =>
        nu.chat_id = old.chat_id ∧ nu.high_alert = old.high_alert ∧
        nu.low_alert = old.low_alert ∧ nu.is_active = old.is_active ∧
        nu.created_at = old.created_at ∧
        (old.chat_id = 1 → nu.region = "VIC1" ∧ nu.updated_at = 9) ∧
        (old.chat_id ≠ 1 → nu = old))
      [⟨1, "NSW1", 200, 10, true, 5, 5⟩]
      (Store.upsert_user ⟨[⟨1, "NSW1", 200, 10, true, 5, 5⟩], [], [], []⟩ 9 1 "VIC1").users ∧
    (Store.upsert_user Store.empty 7 2 "QLD1").users =
      [⟨2, "QLD1", defaultHighAlert, defaultLowAlert, true, 7, 7⟩] ∧
    (Store.upsert_user Store.empty 7 2 "QLD1").price_history = [] :=
  ⟨upsert_user_frame.1 ⟨[⟨1, "NSW1", 200, 10, true, 5, 5⟩], [], [], []⟩ 9 1 "VIC1"
      ⟨⟨1, "NSW1", 200, 10, true, 5, 5⟩, by simp⟩,
   upsert_user_frame.2.1 Store.empty 7 2 "QLD1" (by simp [Store.empty]),
   (upsert_user_frame.2.2 Store.empty 7 2 "QLD1").1⟩

/-- A fetch reply the slot loop classifies as Stale against the expected
settlement time: it succeeded but carries no record for that interval. -/
def isStaleReply (r : FetchReply) (expected : String) : Prop :=
  ∃ ps, r = .ok ps ∧ ps.any (fun p => p.interval_time == expected) = false

/-- C3: a slot whose five fetch attempts all come back stale performs
exactly 5 fetches and 5 fifteen-second sleeps, inserts nothing, sends
nothing and abandons the slot; a Stale classification happens before any
store write (the store is returned untouched); a fetch error abandons the
slot after a single attempt with no sleep. -/
theorem stale_slot_handling :
    (∀ (reply : Nat → FetchReply) (expected : String) (now : Int)
        (todayPfx nowStr laterStr : String) (ev : Nat → SendEvent) (s : Store),
      (∀ i, i < 5 → isStaleReply (reply i) expected) →
      runSlot reply expected now todayPfx nowStr laterStr ev s = ⟨s, [], false, 5, 5⟩) ∧
    (∀ (prices : List PriceRecord) (expected : String) (s : Store) (now : Int)
        (todayPfx nowStr laterStr : String) (ev : Nat → SendEvent),
      prices.any (fun p => p.interval_time == expected) = false →
      price_fetch_checked (.ok prices) expected s now todayPfx nowStr laterStr ev =
        (.Stale, s, [])) ∧
    (∀ (reply : Nat → FetchReply) (expected : String) (now : Int)
        (todayPfx nowStr laterStr : String) (ev : Nat → SendEvent) (s : Store),
      reply 0 = .err →
      runSlot reply expected now todayPfx nowStr laterStr ev s = ⟨s, [], false, 1, 0⟩) := by
  refine ⟨?_, ?_, ?_⟩
  · intro reply expected now todayPfx nowStr laterStr ev s h
    obtain ⟨p0, hr0, hs0⟩ := h 0 (by omega)
    obtain ⟨p1, hr1, hs1⟩ := h 1 (by omega)
    obtain ⟨p2, hr2, hs2⟩ := h 2 (by omega)
    obtain ⟨p3, hr3, hs3⟩ := h 3 (by omega)
    obtain ⟨p4, hr4, hs4⟩ := h 4 (by omega)
    simp [runSlot, runSlotGo, price_fetch_checked, hr0, hs0, hr1, hs1, hr2, hs2,
      hr3, hs3, hr4, hs4]
  · intro prices expected s now todayPfx nowStr laterStr ev h
    simp [price_fetch_checked, h]
  · intro reply expected now todayPfx nowStr laterStr ev s h
    simp [runSlot, runSlotGo, price_fetch_checked, h]

/-- Witness for C3: a reply stream of empty successful fetches is stale five
times and the slot is abandoned untouched; a first-attempt error abandons at
once. -/
theorem stale_slot_handling_witness :
    runSlot (fun _ => .ok []) "2026/02/27 14:00:00" 0 "2026/02/27" "a" "b"
        (fun _ => ⟨.ok, false, 0⟩) Store.empty = ⟨Store.empty, [], false, 5, 5⟩ ∧
    price_fetch_checked (.ok []) "2026/02/27 14:00:00" Store.empty 0 "2026/02/27" "a" "b"
        (fun _ => ⟨.ok, false, 0⟩) = (.Stale, Store.empty, []) ∧
    runSlot (fun _ => .err) "2026/02/27 14:00:00" 0 "2026/02/27" "a" "b"
        (fun _ => ⟨.ok, false, 0⟩) Store.empty = ⟨Store.empty, [], false, 1, 0⟩ :=
  ⟨stale_slot_handling.1 (fun _ => .ok []) _ 0 _ _ _ _ Store.empty
      (fun _ _ => ⟨[], rfl, rfl⟩),
   stale_slot_handling.2.1 [] _ Store.empty 0 _ _ _ _ rfl,
   stale_slot_handling.2.2 (fun _ => .err) _ 0 _ _ _ _ Store.empty rfl⟩

/-- The lexicographic order is irreflexive. -/
theorem charListLt_irrefl (l : List Char) : charListLt l l = false := by
  induction l with
  | nil => rfl
  | cons a as' ih => simp [charListLt, ih]

/-- C5: inserting two forecasts for the same (region, forecast_time) with
distinct published_at values and querying any window containing the slot
returns exactly one pair — the price published later. -/
theorem get_forecasts_latest_publish_wins (now1 now2 : Int)
    (region ft pub1 pub2 afterT beforeT : String) (p1 p2 : ℚ)
    (hpub : pub1 ≠ pub2) (hlo : strLt afterT ft = true) (hhi : strLe ft beforeT = true) :
    Store.get_forecasts
      (Store.insert_forecast (Store.insert_forecast Store.empty now1 region ft p1 pub1)
        now2 region ft p2 pub2)
      region afterT beforeT = [(ft, if strLt pub1 pub2 then p2 else p1)] := by
  have h2 : Store.insert_forecast Store.empty now1 region ft p1 pub1 =
      { Store.empty with forecast := [⟨region, ft, p1, pub1, now1⟩] } := by
    simp [Store.insert_forecast, Store.empty]
  have hne : (pub1 == pub2) = false := beq_eq_false_iff_ne.mpr hpub
  have h3 : Store.insert_forecast { Store.empty with forecast := [⟨region, ft, p1, pub1, now1⟩] }
      now2 region ft p2 pub2 =
      { Store.empty with forecast :=
          [⟨region, ft, p1, pub1, now1⟩, ⟨region, ft, p2, pub2, now2⟩] } := by
    simp [Store.insert_forecast, Store.empty, hne]
  rw [h2, h3]
  unfold Store.get_forecasts
  have hfilter :
      ([⟨region, ft, p1, pub1, now1⟩, (⟨region, ft, p2, pub2, now2⟩ : ForecastRow)].filter
        (fun r => r.region == region && strLt afterT r.forecast_time &&
          strLe r.forecast_time beforeT)) =
      [⟨region, ft, p1, pub1, now1⟩, ⟨region, ft, p2, pub2, now2⟩] := by
    simp [List.filter, hlo, hhi]
  rw [hfilter]
  have hftft : strLt ft ft = false := charListLt_irrefl ft.data
  by_cases hlt : strLt pub1 pub2 = true
  · have hle12 : forecastLe (⟨region, ft, p1, pub1, now1⟩ : ForecastRow)
        ⟨region, ft, p2, pub2, now2⟩ = false := by
      simp [forecastLe, strLe, hftft, hlt]
    simp [sortBy, insertBy, hle12, dedupByTime, hlt]
  · have hlt' : strLt pub1 pub2 = false := by
      revert hlt
      cases strLt pub1 pub2 <;> simp
    have hle12 : forecastLe (⟨region, ft, p1, pub1, now1⟩ : ForecastRow)
        ⟨region, ft, p2, pub2, now2⟩ = true := by
      simp [forecastLe, strLe, hftft, hlt']
    simp [sortBy, insertBy, hle12, dedupByTime, hlt']

/-- Witness for C5: two concrete forecasts for the 15:00 slot published at
14:00 and 14:30; the 14:30 price wins. -/
theorem get_forecasts_latest_publish_wins_witness :
    Store.get_forecasts
      (Store.insert_forecast
        (Store.insert_forecast Store.empty 0 "NSW1" "2026/02/27 15:00:00" 100 "2026/02/27 14:00:00")
        0 "NSW1" "2026/02/27 15:00:00" 120 "2026/02/27 14:30:00")
      "NSW1" "2026/02/27 14:31:00" "2026/02/27 16:00:00" =
      [("2026/02/27 15:00:00",
        if strLt "2026/02/27 14:00:00" "2026/02/27 14:30:00" then (120 : ℚ) else 100)] :=
  get_forecasts_latest_publish_wins 0 0 "NSW1" "2026/02/27 15:00:00" "2026/02/27 14:00:00"
    "2026/02/27 14:30:00" "2026/02/27 14:31:00" "2026/02/27 16:00:00" 100 120
    (by decide) (by decide) (by decide)

/-- Folding the notifier from any accumulator equals the run from an empty
accumulator with the already-accumulated messages in front. -/
theorem sendAccum_foldl (ps : List (PendingAlert × SendEvent)) :
    ∀ (s : Store) (m : List (Int × MsgText)),
      ps.foldl sendAccum (s, m) = ((send_alerts s ps).1, m ++ (send_alerts s ps).2) := by
  induction ps with
  | nil => intro s m; simp [send_alerts]
  | cons p ps ih =>
    intro s m
    show ps.foldl sendAccum (sendAccum (s, m) p) = _
    have hrhs : send_alerts s (p :: ps) = ps.foldl sendAccum (sendAccum (s, []) p) := rfl
    rw [hrhs]
    simp only [sendAccum]
    rw [ih, ih]
    simp

/-- C4: send_alerts processes the pending list sequentially; an alert whose
user is already at the hourly cap is dropped with no send and no log row; a
successful send appends exactly one alert_log row and touches nothing else;
a failure whose error text carries the Forbidden signal deactivates the
user; any other failure leaves the store unchanged. -/
theorem notifier_postconditions :
    (∀ (s : Store) (p : PendingAlert × SendEvent) (ps : List (PendingAlert × SendEvent)),
      send_alerts s (p :: ps) =
        ((send_alerts (sendStep s p).1 ps).1,
          (sendStep s p).2 ++ (send_alerts (sendStep s p).1 ps).2)) ∧
    (∀ (s : Store) (a : PendingAlert) (e : SendEvent), e.countFail = false →
      s.count_alerts_this_hour e.time a.chat_id ≥ 10 → sendStep s (a, e) = (s, [])) ∧
    (∀ (s : Store) (a : PendingAlert) (e : SendEvent), e.countFail = false →
      s.count_alerts_this_hour e.time a.chat_id < 10 → e.outcome = .ok →
      (sendStep s (a, e)).1.alert_log =
        s.alert_log ++ [⟨a.chat_id, a.alert_type, a.price, a.region, e.time⟩] ∧
      (sendStep s (a, e)).1.users = s.users ∧
      (sendStep s (a, e)).1.price_history = s.price_history ∧
      (sendStep s (a, e)).1.forecast = s.forecast ∧
      (sendStep s (a, e)).2 = [(a.chat_id, a.text)]) ∧
    (∀ (s : Store) (a : PendingAlert) (e : SendEvent) (msg : String), e.countFail = false →
      s.count_alerts_this_hour e.time a.chat_id < 10 → e.outcome = .err msg →
      (containsSub msg "Forbidden" = true →
        (sendStep s (a, e)).1 = s.set_active e.time a.chat_id false) ∧
      (containsSub msg "Forbidden" = false → (sendStep s (a, e)).1 = s)) := by
  refine ⟨?_, ?_, ?_, ?_⟩
  · intro s p ps
    show ps.foldl sendAccum (sendAccum (s, []) p) = _
    simp only [sendAccum]
    rw [sendAccum_foldl]
    simp
  · intro s a e hcf hge
    simp [sendStep, hcf, unwrapOr, hge]
  · intro s a e hcf hlt hok
    simp [sendStep, hcf, unwrapOr, not_le.mpr hlt, hok, Store.log_alert]
  · intro s a e msg hcf hlt herr
    constructor
    · intro hforb
      simp [sendStep, hcf, unwrapOr, not_le.mpr hlt, herr, hforb]
    · intro hforb
      simp [sendStep, hcf, unwrapOr, not_le.mpr hlt, herr, hforb]

/-- A store whose only user sits exactly at the 10-alerts-per-hour cap at
instant 10000, with a recent high_price alert and no recent all_clear. -/
def capStore : Store :=
  ⟨[⟨1, "NSW1", 150, 0, true, 0, 0⟩], [], [],
    (List.range 10).map (fun i => ⟨1, "high_price", 200, "NSW1", 9000 + (i : Int)⟩)⟩

/-- Witness for C4: at the cap the alert is dropped; below the cap a
successful send logs exactly one row; a Forbidden failure deactivates; an
other failure changes nothing. -/
theorem notifier_postconditions_witness :
    sendStep capStore (⟨1, .low "NSW1" 5, "low_price", 5, "NSW1"⟩, ⟨.ok, false, 10000⟩) =
      (capStore, []) ∧
    (sendStep Store.empty (⟨1, .low "NSW1" 5, "low_price", 5, "NSW1"⟩, ⟨.ok, false, 0⟩)).1.alert_log =
      Store.empty.alert_log ++ [⟨1, "low_price", 5, "NSW1", 0⟩] ∧
    (sendStep Store.empty
      (⟨1, .low "NSW1" 5, "low_price", 5, "NSW1"⟩, ⟨.err "Forbidden: bot was blocked", false, 0⟩)).1 =
      Store.empty.set_active 0 1 false ∧
    (sendStep Store.empty
      (⟨1, .low "NSW1" 5, "low_price", 5, "NSW1"⟩, ⟨.err "network timeout", false, 0⟩)).1 =
      Store.empty :=
  ⟨notifier_postconditions.2.1 capStore ⟨1, .low "NSW1" 5, "low_price", 5, "NSW1"⟩
      ⟨.ok, false, 10000⟩ rfl (by decide),
   (notifier_postconditions.2.2.1 Store.empty ⟨1, .low "NSW1" 5, "low_price", 5, "NSW1"⟩
      ⟨.ok, false, 0⟩ rfl (by decide) rfl).1,
   (notifier_postconditions.2.2.2 Store.empty ⟨1, .low "NSW1" 5, "low_price", 5, "NSW1"⟩
      ⟨.err "Forbidden: bot was blocked", false, 0⟩ "Forbidden: bot was blocked" rfl (by decide)
      rfl).1 (by decide),
   (notifier_postconditions.2.2.2 Store.empty ⟨1, .low "NSW1" 5, "low_price", 5, "NSW1"⟩
      ⟨.err "network timeout", false, 0⟩ "network timeout" rfl (by decide) rfl).2 (by decide)⟩

/-- Membership in a Bool-guarded singleton list. -/
theorem mem_bif_singleton {α : Type} {b : Bool} {x a : α} :
    a ∈ (if b = true then [x] else []) ↔ b = true ∧ a = x := by
  cases b <;> simp

/-- Membership in a Bool-guarded list. -/
theorem mem_bif_nil_right {α : Type} {b : Bool} {l : List α} {a : α} :
    a ∈ (if b = true then l else []) ↔ b = true ∧ a ∈ l := by
  cases b <;> simp

/-- Membership in a Prop-guarded singleton list. -/
theorem mem_if_singleton {α : Type} {c : Prop} [Decidable c] {x a : α} :
    a ∈ (if c then [x] else []) ↔ c ∧ a = x := by
  split_ifs with h <;> simp [h]

/-- Membership in a Prop-guarded list. -/
theorem mem_if_nil_right {α : Type} {c : Prop} [Decidable c] {l : List α} {a : α} :
    a ∈ (if c then l else []) ↔ c ∧ a ∈ l := by
  split_ifs with h <;> simp [h]

/-- can_alert only passes under the hourly cap. -/
theorem can_alert_count {db : DbView} {c : Int} {ty : String} {m : Int}
    (h : can_alert db c ty m = true) : unwrapOr (db.count_alerts_this_hour c) 10 < 10 := by
  unfold can_alert at h
  rw [Bool.and_eq_true] at h
  simpa using h.2

/-- Every spike alert carries the spike type and passed can_alert for its
chat. -/
theorem mem_spikeAlerts {db : DbView} {rec : PriceRecord} {a : PendingAlert}
    (h : a ∈ spikeAlerts db rec) :
    a.alert_type = "spike" ∧ can_alert db a.chat_id "spike" 30 = true := by
  unfold spikeAlerts at h
  cases hpp : okFlatten (db.get_previous_price rec.region) with
  | none => rw [hpp] at h; simp at h
  | some prev =>
    rw [hpp] at h
    dsimp only at h
    by_cases habs : |rec.price - prev| > 100
    · rw [if_pos habs] at h
      cases hu : db.get_active_users_by_region rec.region with
      | error e => rw [hu] at h; simp at h
      | ok users =>
        rw [hu] at h
        rw [List.mem_flatMap] at h
        obtain ⟨u, _, hmem⟩ := h
        rw [mem_bif_singleton] at hmem
        obtain ⟨hca, rfl⟩ := hmem
        exact ⟨rfl, hca⟩
    · rw [if_neg habs] at h; simp at h

/-- Characterization of the per-user threshold block: exactly three possible
alerts, each under its source-code condition. -/
theorem mem_userThresholdAlerts {db : DbView} {dr : Option (ℚ × ℚ)} {rec : PriceRecord}
    {u : User} {a : PendingAlert} :
    a ∈ userThresholdAlerts db dr rec u ↔
      ((rec.price > u.high_alert ∧ can_alert db u.chat_id "high_price" 30 = true) ∧
        a = ⟨u.chat_id, .high rec.region rec.price u.high_alert dr, "high_price",
          rec.price, rec.region⟩) ∨
      ((rec.price < u.low_alert ∧ can_alert db u.chat_id "low_price" 30 = true) ∧
        a = ⟨u.chat_id, .low rec.region rec.price, "low_price", rec.price, rec.region⟩) ∨
      ((rec.price ≤ u.high_alert ∧
          unwrapOr (db.was_alert_sent_recently u.chat_id "high_price" 180) false = true ∧
          unwrapOr (db.was_alert_sent_recently u.chat_id "all_clear" 60) false = false) ∧
        a = ⟨u.chat_id, .allClear rec.region rec.price (dr.map (fun r => r.2)), "all_clear",
          rec.price, rec.region⟩) := by
  unfold userThresholdAlerts
  simp only [List.mem_append, mem_if_singleton, mem_if_nil_right, List.mem_singleton,
    Bool.and_eq_true, Bool.not_eq_true', decide_eq_true_eq]
  tauto

/-- The per-user hourly sliding-window cap on the alert log. -/
def hourlyCapOK (s : Store) : Prop :=
  ∀ (chat t0 : Int),
    s.alert_log.countP
      (fun r => decide (r.chat_id = chat ∧ t0 < r.sent_at ∧ r.sent_at ≤ t0 + 3600)) ≤ 10

/-- One notifier step preserves the hourly cap: logging only happens after
the count re-check, and every row of a window ending at or after the new
row's instant lies inside the re-checked hour. -/
theorem sendStep_cap (s : Store) (p : PendingAlert × SendEvent) (h : hourlyCapOK s) :
    hourlyCapOK (sendStep s p).1 := by
  obtain ⟨a, e⟩ := p
  unfold sendStep
  dsimp only
  cases hcf : e.countFail with
  | true => simpa [hcf, unwrapOr] using h
  | false =>
    by_cases hge : s.count_alerts_this_hour e.time a.chat_id ≥ 10
    · simpa [hcf, unwrapOr, hge] using h
    · rw [if_neg (by simpa [hcf, unwrapOr] using hge)]
      cases ho : e.outcome with
      | ok =>
        intro chat t0
        show ((s.log_alert e.time a.chat_id a.alert_type a.price a.region).alert_log.countP _) ≤ 10
        unfold Store.log_alert
        rw [List.countP_append]
        by_cases hrow : a.chat_id = chat ∧ t0 < e.time ∧ e.time ≤ t0 + 3600
        · have hone : List.countP
              (fun r => decide (r.chat_id = chat ∧ t0 < r.sent_at ∧ r.sent_at ≤ t0 + 3600))
              [(⟨a.chat_id, a.alert_type, a.price, a.region, e.time⟩ : AlertRow)] = 1 := by
            simp [List.countP_cons, hrow.1, hrow.2.1, hrow.2.2]
          rw [hone]
          have hmono : s.alert_log.countP
                (fun r => decide (r.chat_id = chat ∧ t0 < r.sent_at ∧ r.sent_at ≤ t0 + 3600)) ≤
              s.alert_log.countP
                (fun r => decide (r.chat_id = a.chat_id ∧ e.time - 3600 < r.sent_at)) := by
            apply List.countP_mono_left
            intro r _ hr
            rw [decide_eq_true_eq] at hr ⊢
            obtain ⟨h1, h2, h3⟩ := hr
            have h4 := hrow.2.2
            exact ⟨h1.trans hrow.1.symm, by omega⟩
          have hcnt : s.alert_log.countP
              (fun r => decide (r.chat_id = a.chat_id ∧ e.time - 3600 < r.sent_at)) < 10 := by
            unfold Store.count_alerts_this_hour at hge
            omega
          omega
        · have hzero : List.countP
              (fun r => decide (r.chat_id = chat ∧ t0 < r.sent_at ∧ r.sent_at ≤ t0 + 3600))
              [(⟨a.chat_id, a.alert_type, a.price, a.region, e.time⟩ : AlertRow)] = 0 := by
            simp only [List.countP_cons, List.countP_nil, decide_eq_true_eq]
            simp [hrow]
          rw [hzero]
          have := h chat t0
          omega
      | err msg =>
        dsimp only
        split_ifs with hforb
        · intro chat t0
          show ((s.set_active e.time a.chat_id false).alert_log.countP _) ≤ 10
          unfold Store.set_active
          exact h chat t0
        · exact h

/-- C1 (amended): the sliding-window hourly cap is an invariant of
send_alerts; the Analyzer never emits a spike, high_price, low_price or
forecast alert for a user at the cap (all_clear is not count-guarded in the
Analyzer); the Notifier re-checks the bound immediately before each send and
drops capped alerts, which alone preserves the invariant. -/
theorem hourly_cap_two_layer :
    (∀ (s : Store) (evts : List (PendingAlert × SendEvent)),
      hourlyCapOK s → hourlyCapOK (send_alerts s evts).1) ∧
    (∀ (db : DbView) (todayPfx : String) (prices : List PriceRecord) (a : PendingAlert),
      a ∈ analyze db todayPfx prices → a.alert_type ≠ "all_clear" →
      unwrapOr (db.count_alerts_this_hour a.chat_id) 10 < 10) ∧
    (∀ (db : DbView) (nowStr laterStr region : String) (cur : ℚ) (a : PendingAlert),
      a ∈ analyze_forecasts db nowStr laterStr region cur →
      unwrapOr (db.count_alerts_this_hour a.chat_id) 10 < 10) ∧
    (∀ (s : Store) (a : PendingAlert) (e : SendEvent), e.countFail = false →
      s.count_alerts_this_hour e.time a.chat_id ≥ 10 → sendStep s (a, e) = (s, [])) := by
  refine ⟨?_, ?_, ?_, ?_⟩
  · intro s evts
    induction evts generalizing s with
    | nil => intro h; simpa [send_alerts] using h
    | cons p ps ih =>
      intro h
      have hstep : send_alerts s (p :: ps) = ps.foldl sendAccum (sendAccum (s, []) p) := rfl
      rw [hstep]
      have hacc : sendAccum (s, []) p = ((sendStep s p).1, [] ++ (sendStep s p).2) := rfl
      rw [hacc, sendAccum_foldl]
      exact ih (sendStep s p).1 (sendStep_cap s p h)
  · intro db todayPfx prices a ha hty
    rw [analyze, List.mem_flatMap] at ha
    obtain ⟨rec, _, ha⟩ := ha
    unfold recordAlerts at ha
    rw [List.mem_append] at ha
    rcases ha with hs | ht
    · exact can_alert_count (mem_spikeAlerts hs).2
    · cases hu : db.get_active_users_by_region rec.region with
      | error e => rw [hu] at ht; simp at ht
      | ok users =>
        rw [hu] at ht
        rw [List.mem_flatMap] at ht
        obtain ⟨u, _, hm⟩ := ht
        rw [mem_userThresholdAlerts] at hm
        rcases hm with ⟨⟨_, hca⟩, rfl⟩ | ⟨⟨_, hca⟩, rfl⟩ | ⟨_, rfl⟩
        · exact can_alert_count hca
        · exact can_alert_count hca
        · exact absurd rfl hty
  · intro db nowStr laterStr region cur a ha
    unfold analyze_forecasts at ha
    cases hf : db.get_forecasts region nowStr laterStr with
    | error e => rw [hf] at ha; simp at ha
    | ok fcs =>
      rw [hf] at ha
      cases hu : db.get_active_users_by_region region with
      | error e => rw [hu] at ha; simp at ha
      | ok users =>
        rw [hu] at ha
        rw [List.mem_flatMap] at ha
        obtain ⟨fc, _, ha⟩ := ha
        rw [List.mem_flatMap] at ha
        obtain ⟨u, _, hm⟩ := ha
        rw [mem_bif_singleton] at hm
        obtain ⟨hca, rfl⟩ := hm
        rw [Bool.and_eq_true] at hca
        exact can_alert_count hca.2
  · intro s a e hcf hge
    simp [sendStep, hcf, unwrapOr, hge]

/-- A store with one active user under the cap: analyze emits a high_price
alert for it. -/
def oneUserStore : Store := ⟨[⟨1, "NSW1", 150, 0, true, 0, 0⟩], [], [], []⟩

/-- Witness for C1 (amended): the cap invariant survives a send round over
the empty log; the high_price alert the analyzer emits for a fresh user
proves its chat is under the cap; a capped alert is dropped by the
notifier. -/
theorem hourly_cap_two_layer_witness :
    hourlyCapOK (send_alerts Store.empty []).1 ∧
    unwrapOr ((oneUserStore.view 0).count_alerts_this_hour 1) 10 < 10 ∧
    sendStep capStore (⟨1, .low "NSW1" 5, "low_price", 5, "NSW1"⟩, ⟨.ok, false, 10000⟩) =
      (capStore, []) :=
  ⟨hourly_cap_two_layer.1 Store.empty [] (fun chat t0 => by simp [Store.empty]),
   hourly_cap_two_layer.2.1 (oneUserStore.view 0) "2026/02/27"
     [⟨"NSW1", 200, "2026/02/27 14:00:00"⟩]
     ⟨1, .high "NSW1" 200 150 none, "high_price", 200, "NSW1"⟩ (by decide) (by decide),
   hourly_cap_two_layer.2.2.2 capStore ⟨1, .low "NSW1" 5, "low_price", 5, "NSW1"⟩
     ⟨.ok, false, 10000⟩ rfl (by decide)⟩

/-- Counterexample for C1 as stated: a user sitting exactly at the
10-per-hour cap (count_alerts_this_hour = 10) still receives a pending
all_clear alert from the Analyzer, because the all-clear branch of analyze
is not guarded by can_alert. -/
theorem hourly_cap_counterexample :
    Store.count_alerts_this_hour capStore 10000 1 = 10 ∧
    (analyze (capStore.view 10000) "2026/02/27"
      [⟨"NSW1", 100, "2026/02/27 14:00:00"⟩]).map (fun a => (a.chat_id, a.alert_type)) =
      [(1, "all_clear")] := by
  constructor
  · decide
  · decide

/-- analyze on a single record is that record's alert block. -/
theorem analyze_singleton (db : DbView) (todayPfx : String) (rec : PriceRecord) :
    analyze db todayPfx [rec] = recordAlerts db todayPfx rec := by
  simp [analyze]

/-- Membership in analyze of one record, when the user query succeeds. -/
theorem mem_analyze_singleton {db : DbView} {todayPfx : String} {rec : PriceRecord}
    {users : List User} (hok : db.get_active_users_by_region rec.region = .ok users)
    (a : PendingAlert) :
    a ∈ analyze db todayPfx [rec] ↔
      a ∈ spikeAlerts db rec ∨ ∃ u' ∈ users,
        a ∈ userThresholdAlerts db (okFlatten (db.get_daily_range rec.region todayPfx)) rec u' := by
  rw [analyze_singleton]
  unfold recordAlerts
  rw [hok]
  simp [List.mem_append, List.mem_flatMap]

/-- C2: for every price record and every active user of its region (with the
primary-key uniqueness of chat_id), analyze emits the high_price alert
exactly when current > high_alert and can_alert passes, the low_price alert
exactly when current < low_alert and can_alert passes, and at
current = high_alert no high_price alert is emitted for that user; analyze
over a batch is the concatenation of its per-record runs. -/
theorem threshold_alerts_strict :
    (∀ (db : DbView) (todayPfx : String) (prices : List PriceRecord),
      analyze db todayPfx prices = prices.flatMap (fun r => analyze db todayPfx [r])) ∧
    (∀ (db : DbView) (todayPfx : String) (rec : PriceRecord) (users : List User) (u : User),
      db.get_active_users_by_region rec.region = .ok users →
      (users.map (fun x => x.chat_id)).Nodup → u ∈ users →
      ((⟨u.chat_id, .high rec.region rec.price u.high_alert
            (okFlatten (db.get_daily_range rec.region todayPfx)), "high_price", rec.price,
            rec.region⟩ : PendingAlert) ∈ analyze db todayPfx [rec] ↔
        rec.price > u.high_alert ∧ can_alert db u.chat_id "high_price" 30 = true) ∧
      ((⟨u.chat_id, .low rec.region rec.price, "low_price", rec.price,
            rec.region⟩ : PendingAlert) ∈ analyze db todayPfx [rec] ↔
        rec.price < u.low_alert ∧ can_alert db u.chat_id "low_price" 30 = true) ∧
      (rec.price = u.high_alert →
        ∀ a ∈ analyze db todayPfx [rec],
          ¬(a.chat_id = u.chat_id ∧ a.alert_type = "high_price"))) := by
  constructor
  · intro db todayPfx prices
    simp [analyze]
  · intro db todayPfx rec users u hok hnodup hu
    refine ⟨?_, ?_, ?_⟩
    · constructor
      · intro hm
        rcases (mem_analyze_singleton hok _).mp hm with hs | ⟨u', hu', hm'⟩
        · have := (mem_spikeAlerts hs).1
          simp at this
        · rcases mem_userThresholdAlerts.mp hm' with ⟨hc, heq⟩ | ⟨_, heq⟩ | ⟨_, heq⟩
          · have hchat : u.chat_id = u'.chat_id := congrArg PendingAlert.chat_id heq
            have htext := congrArg PendingAlert.text heq
            rw [MsgText.high.injEq] at htext
            have hha : u.high_alert = u'.high_alert := htext.2.2.1
            exact ⟨by rw [hha]; exact hc.1, by rw [hchat]; exact hc.2⟩
          · have := congrArg PendingAlert.alert_type heq
            simp at this
          · have := congrArg PendingAlert.alert_type heq
            simp at this
      · intro hc
        apply (mem_analyze_singleton hok _).mpr
        exact Or.inr ⟨u, hu, mem_userThresholdAlerts.mpr (Or.inl ⟨hc, rfl⟩)⟩
    · constructor
      · intro hm
        rcases (mem_analyze_singleton hok _).mp hm with hs | ⟨u', hu', hm'⟩
        · have := (mem_spikeAlerts hs).1
          simp at this
        · rcases mem_userThresholdAlerts.mp hm' with ⟨_, heq⟩ | ⟨hc, heq⟩ | ⟨_, heq⟩
          · have := congrArg PendingAlert.alert_type heq
            simp at this
          · have hchat : u.chat_id = u'.chat_id := congrArg PendingAlert.chat_id heq
            have hu'u : u' = u := List.inj_on_of_nodup_map hnodup hu' hu hchat.symm
            rw [hu'u] at hc
            exact hc
          · have := congrArg PendingAlert.alert_type heq
            simp at this
      · intro hc
        apply (mem_analyze_singleton hok _).mpr
        exact Or.inr ⟨u, hu, mem_userThresholdAlerts.mpr (Or.inr (Or.inl ⟨hc, rfl⟩))⟩
    · intro hEq a ha hcontra
      rcases (mem_analyze_singleton hok a).mp ha with hs | ⟨u', hu', hm'⟩
      · have hsp := (mem_spikeAlerts hs).1
        rw [hcontra.2] at hsp
        exact absurd hsp (by decide)
      · rcases mem_userThresholdAlerts.mp hm' with ⟨hc, heq⟩ | ⟨_, heq⟩ | ⟨_, heq⟩
        · subst heq
          have hchat : u'.chat_id = u.chat_id := hcontra.1
          have hu'u : u' = u := List.inj_on_of_nodup_map hnodup hu' hu hchat
          rw [hu'u] at hc
          rw [hEq] at hc
          exact lt_irrefl _ hc.1
        · subst heq
          simp at hcontra
        · subst heq
          simp at hcontra

/-- Witness for C2 at a concrete store: one active user with high_alert 150
and low_alert 0; a 200 record triggers the high alert exactly under the
source-code condition. -/
theorem threshold_alerts_strict_witness :
    ((⟨1, .high "NSW1" 200 150
        (okFlatten (((oneUserStore.view 0)).get_daily_range "NSW1" "2026/02/27")), "high_price",
        200, "NSW1"⟩ : PendingAlert) ∈
      analyze (oneUserStore.view 0) "2026/02/27" [⟨"NSW1", 200, "2026/02/27 14:00:00"⟩] ↔
        (200 : ℚ) > 150 ∧ can_alert (oneUserStore.view 0) 1 "high_price" 30 = true) ∧
    ((⟨1, .low "NSW1" 200, "low_price", 200, "NSW1"⟩ : PendingAlert) ∈
      analyze (oneUserStore.view 0) "2026/02/27" [⟨"NSW1", 200, "2026/02/27 14:00:00"⟩] ↔
        (200 : ℚ) < 0 ∧ can_alert (oneUserStore.view 0) 1 "low_price" 30 = true) :=
  have h := threshold_alerts_strict.2 (oneUserStore.view 0) "2026/02/27"
    ⟨"NSW1", 200, "2026/02/27 14:00:00"⟩ [⟨1, "NSW1", 150, 0, true, 0⟩]
    ⟨1, "NSW1", 150, 0, true, 0⟩ rfl (by decide) (by decide)
  ⟨h.1, h.2.1⟩

/-- C6: over a store-backed view, analyze emits the all_clear alert for an
active user of the record's region exactly when the price is at or below the
user's high threshold, a high_price alert went out within the last 180
minutes, and no all_clear went out within the last 60 minutes; every
all_clear alert it emits reports the max of the day's daily range as the
peak. -/
theorem all_clear_rule (st : Store) (now : Int) (todayPfx : String) (rec : PriceRecord)
    (u : User) (hu : u ∈ st.get_active_users_by_region rec.region)
    (hnodup : ((st.get_active_users_by_region rec.region).map (fun x => x.chat_id)).Nodup) :
    ((⟨u.chat_id, .allClear rec.region rec.price
          ((st.get_daily_range rec.region todayPfx).map (fun r => r.2)), "all_clear",
          rec.price, rec.region⟩ : PendingAlert) ∈ analyze (st.view now) todayPfx [rec] ↔
      (rec.price ≤ u.high_alert ∧
        st.was_alert_sent_recently now u.chat_id "high_price" 180 = true ∧
        st.was_alert_sent_recently now u.chat_id "all_clear" 60 = false)) ∧
    (∀ a ∈ analyze (st.view now) todayPfx [rec], a.alert_type = "all_clear" →
      a.text = .allClear rec.region rec.price
        ((st.get_daily_range rec.region todayPfx).map (fun r => r.2))) := by
  have hok : (st.view now).get_active_users_by_region rec.region =
      .ok (st.get_active_users_by_region rec.region) := rfl
  constructor
  · constructor
    · intro hm
      rcases (mem_analyze_singleton hok _).mp hm with hs | ⟨u', hu', hm'⟩
      · have := (mem_spikeAlerts hs).1
        simp at this
      · rcases mem_userThresholdAlerts.mp hm' with ⟨_, heq⟩ | ⟨_, heq⟩ | ⟨hc, heq⟩
        · have := congrArg PendingAlert.alert_type heq
          simp at this
        · have := congrArg PendingAlert.alert_type heq
          simp at this
        · have hchat : u.chat_id = u'.chat_id := congrArg PendingAlert.chat_id heq
          have hu'u : u' = u := List.inj_on_of_nodup_map hnodup hu' hu hchat.symm
          rw [hu'u] at hc
          exact ⟨hc.1, hc.2.1, hc.2.2⟩
    · intro hc
      apply (mem_analyze_singleton hok _).mpr
      exact Or.inr ⟨u, hu,
        mem_userThresholdAlerts.mpr (Or.inr (Or.inr ⟨⟨hc.1, hc.2.1, hc.2.2⟩, rfl⟩))⟩
  · intro a ha hty
    rcases (mem_analyze_singleton hok a).mp ha with hs | ⟨u', hu', hm'⟩
    · have hsp := (mem_spikeAlerts hs).1
      rw [hty] at hsp
      exact absurd hsp (by decide)
    · rcases mem_userThresholdAlerts.mp hm' with ⟨_, heq⟩ | ⟨_, heq⟩ | ⟨_, heq⟩
      · subst heq
        simp at hty
      · subst heq
        simp at hty
      · subst heq
        rfl

/-- Witness for C6: the capStore user (high 150, recent high_price, no
recent all_clear) and a 100 record: the iff instantiates and both recency
conditions are concrete. -/
theorem all_clear_rule_witness :
    ((⟨1, .allClear "NSW1" 100
          ((capStore.get_daily_range "NSW1" "2026/02/27").map (fun r => r.2)), "all_clear",
          100, "NSW1"⟩ : PendingAlert) ∈
        analyze (capStore.view 10000) "2026/02/27" [⟨"NSW1", 100, "2026/02/27 14:00:00"⟩] ↔
      ((100 : ℚ) ≤ 150 ∧
        capStore.was_alert_sent_recently 10000 1 "high_price" 180 = true ∧
        capStore.was_alert_sent_recently 10000 1 "all_clear" 60 = false)) :=
  (all_clear_rule capStore 10000 "2026/02/27" ⟨"NSW1", 100, "2026/02/27 14:00:00"⟩
    ⟨1, "NSW1", 150, 0, true, 0⟩ (by decide) (by decide)).1

/-- One fold step of parse_dispatch, characterized: the column map is
replaced exactly on a matching I row, and the records grow exactly by the
record block of a matching D row under the incoming map. -/
theorem parseStep_eq (cm : List (List Char × Nat)) (recs : List PriceRecord) (l : List Char) :
    parseStep (cm, recs) l =
      ((if isIline l then colMapOf l else cm),
        recs ++ (if isDline l then emitD cm l else [])) := by
  by_cases hlen : (splitOnChar ',' l).length < 3
  · have h3 : ¬ 3 ≤ (splitOnChar ',' l).length := by omega
    simp [parseStep, isIline, isDline, hlen, h3]
  · have h3 : 3 ≤ (splitOnChar ',' l).length := by omega
    simp [parseStep, isIline, isDline, hlen, h3]
    split_ifs <;> simp

/-- The fold of parse_dispatch from any state appends exactly the records of
the specification state machine started from that map. -/
theorem foldl_parseStep (ls : List (List Char)) :
    ∀ (cm : List (List Char × Nat)) (recs : List PriceRecord),
      ((ls.foldl parseStep (cm, recs)).2 = recs ++ parseDispatchSpecGo cm ls) := by
  induction ls with
  | nil => intro cm recs; simp [parseDispatchSpecGo]
  | cons l ls ih =>
    intro cm recs
    show ((ls.foldl parseStep (parseStep (cm, recs) l)).2 = _)
    rw [parseStep_eq, ih]
    rw [parseDispatchSpecGo]
    rw [List.append_assoc]

/-- A D row under the empty column map contributes nothing. -/
theorem emitD_nil (l : List Char) : emitD [] l = [] := by
  simp [emitD, mapGet]

/-- The specification state machine emits nothing when no line is a D
row. -/
theorem specGo_no_D (ls : List (List Char)) :
    ∀ (cm : List (List Char × Nat)), (∀ l ∈ ls, isDline l = false) →
      parseDispatchSpecGo cm ls = [] := by
  induction ls with
  | nil => intro cm _; rfl
  | cons l ls ih =>
    intro cm h
    rw [parseDispatchSpecGo]
    rw [h l (by simp)]
    simp only [Bool.false_eq_true, if_false, List.nil_append]
    exact ih _ (fun x hx => h x (by simp [hx]))

/-- Starting from the empty map, a file in which no matching I row precedes
a matching D row yields no records. -/
theorem specGo_empty (ls : List (List Char))
    (h : ls.Pairwise (fun a b => ¬(isIline a = true ∧ isDline b = true))) :
    parseDispatchSpecGo [] ls = [] := by
  induction ls with
  | nil => rfl
  | cons l ls ih =>
    rw [List.pairwise_cons] at h
    rw [parseDispatchSpecGo]
    have hfst : (if isDline l then emitD [] l else []) = [] := by
      split_ifs <;> simp [emitD_nil]
    rw [hfst]
    rw [List.nil_append]
    by_cases hIl : isIline l = true
    · rw [if_pos hIl]
      apply specGo_no_D
      intro b hb
      have := h.1 b hb
      rw [Bool.eq_false_iff]
      intro hDb
      exact this ⟨hIl, hDb⟩
    · rw [if_neg hIl]
      exact ih h.2

/-- C7: parse_dispatch coincides with the specification state machine — a D
row yields a record only under the column map supplied by the last matching
I row seen earlier, with REGIONID, RRP and SETTLEMENTDATE mapped, all
indices within the row's field count and the price parsing into
[-1000, 17500]; records come out in file order; and a CSV whose D rows are
preceded by no I row parses to the empty list. -/
theorem parse_dispatch_rejection :
    (∀ csv : String, parse_dispatch csv = parse_dispatch_spec csv) ∧
    (∀ csv : String,
      (rustLines csv.data).Pairwise (fun a b => ¬(isIline a = true ∧ isDline b = true)) →
      parse_dispatch csv = []) := by
  have hmain : ∀ csv : String, parse_dispatch csv = parse_dispatch_spec csv := by
    intro csv
    unfold parse_dispatch parse_dispatch_spec
    rw [foldl_parseStep]
    rw [List.nil_append]
  refine ⟨hmain, ?_⟩
  intro csv h
  rw [hmain]
  exact specGo_empty _ h

/-- Witness for C7: a file whose only I row comes after its D rows parses to
nothing, and the refinement instantiates on a concrete two-record file. -/
theorem parse_dispatch_rejection_witness :
    parse_dispatch "D,DISPATCH,PRICE,1,2,NSW1,95.5,T\nI,DISPATCH,PRICE,1,2,REGIONID,RRP,SETTLEMENTDATE\n" = [] ∧
    parse_dispatch "I,DISPATCH,PRICE,1,2,REGIONID,RRP,SETTLEMENTDATE\nD,DISPATCH,PRICE,1,2,NSW1,95.5,T\n" =
      parse_dispatch_spec "I,DISPATCH,PRICE,1,2,REGIONID,RRP,SETTLEMENTDATE\nD,DISPATCH,PRICE,1,2,NSW1,95.5,T\n" :=
  ⟨parse_dispatch_rejection.2
      "D,DISPATCH,PRICE,1,2,NSW1,95.5,T\nI,DISPATCH,PRICE,1,2,REGIONID,RRP,SETTLEMENTDATE\n"
      (by decide),
   parse_dispatch_rejection.1
      "I,DISPATCH,PRICE,1,2,REGIONID,RRP,SETTLEMENTDATE\nD,DISPATCH,PRICE,1,2,NSW1,95.5,T\n"⟩

end NemBot
